import Mathlib

/-!
Verification of `heap/commands.py` (gdb-heap): a shallow embedding of the
command layer of the gdb heap-analysis plugin, together with proofs about
the behaviour its specification describes.

The embedding models:
* the `need_debuginfo` / `target_running` decorators as exception-filtering
  wrappers over commands of type `Session → CmdOut Session`;
* `HeapLog.invoke`, `HeapSearch.invoke`, `Heap.invoke`, `HeapSizes.invoke`,
  `HeapFree.invoke`, `HeapArenaSelect.invoke` and `HeapSelect.invoke` as pure
  functions over explicit streams of chunks / usages (a Python generator that
  may be cut short by `KeyboardInterrupt` is modelled by the list of items it
  delivered plus an interruption flag);
* Python's insertion-ordered `dict` as an association list (`dictAdd`,
  `dictGet`) and Python's stable `sorted` as `List.insertionSort`;
* the verbatim text of the module from line 427 onward, with a small lexical
  scanner tracking parenthesis depth outside string literals and comments,
  used to establish the unclosed `print(` of `Objdump.invoke`.
-/

namespace GdbHeap

/-- A category triple as used by the categorizer: `(domain, kind, detail)`. -/
structure Category where
  domain : String
  kind : String
  detail : Option String
deriving DecidableEq, Repr, Inhabited

/-- A categorized usage record `(size, category)`; `u.ensure_category()` has
already run, so the category is present. -/
structure Usage where
  size : Nat
  category : Category
deriving DecidableEq, Repr

/-- A heap chunk as seen by the command layer: start address, size
(`chunksize()`), and the in-use flag (`is_inuse()`). -/
structure Chunk where
  addr : Nat
  size : Nat
  inuse : Bool
deriving DecidableEq, Repr, Inhabited

/-- An arena (only its address is displayed by the command layer). -/
structure Arena where
  address : Nat
deriving DecidableEq, Repr, Inhabited

/-- A history snapshot: `name`, `time`, and the text `summary()` returns.
The summary rendering itself lives in `heap/history.py` and is opaque here. -/
structure Snapshot where
  name : String
  time : String
  summaryText : String
deriving DecidableEq, Repr, Inhabited

/-- Process-wide session state touched by the commands: the history log
(`history.snapshots`), the discovered arenas and the current arena
(`glibc_arenas.arenas`, `glibc_arenas.cur_arena`). -/
structure Session where
  snapshots : List Snapshot
  arenas : List Arena
  cur_arena : Arena
deriving DecidableEq, Repr

/-- The Python exceptions that matter to the command layer. -/
inductive PyExc where
  | keyboardInterrupt
  | missingDebuginfo (module : String)
  | gdbError (msg : String)
  | nameError (msg : String)
  | parserError (token : String) (pos : Nat)
  | indexError
deriving DecidableEq, Repr

/-- Everything a command prints: either plain text or a structured row. -/
inductive Out where
  | text (s : String)
  | traceback
  | heapRow (domain kind detail : String) (count bytes : Nat)
  | sizesRow (size count bytes : Nat)
  | chunkLine (i : Nat) (c : Chunk)
  | totalSizeLine (n : Nat)
  | arenaSetLine (addr : Nat)
deriving DecidableEq, Repr

/-- The observable outcome of running one command body: what it printed, the
exception it raised (if it did not return normally), and the session state it
left behind.  Prints that happened before an exception are kept, as in
Python. -/
structure CmdOut (σ : Type) where
  out : List Out
  exc : Option PyExc
  state : σ
deriving Repr, DecidableEq

/-- The `need_debuginfo` decorator: runs the command, catches
`MissingDebuginfo` and prints the module name plus the `debuginfo-install`
remediation hint; every other outcome passes through unchanged. -/
def need_debuginfo {σ : Type} (f : σ → CmdOut σ) (s : σ) : CmdOut σ :=
  let r := f s
  match r.exc with
  | some (PyExc.missingDebuginfo m) =>
      { out := r.out ++
          [Out.text ("Missing debuginfo for " ++ m),
           Out.text "Suggested fix:",
           Out.text ("    debuginfo-install " ++ m)],
        exc := none, state := r.state }
  | _ => r

/-- The `target_running` decorator: runs the command, catches `gdb.error`
and `NameError`, printing the error text and a traceback; every other
outcome passes through unchanged. -/
def target_running {σ : Type} (f : σ → CmdOut σ) (s : σ) : CmdOut σ :=
  let r := f s
  match r.exc with
  | some (PyExc.gdbError msg) =>
      { out := r.out ++
          [Out.text ("Gdb error: \"" ++ msg ++ "\". Is the target running?"),
           Out.text "", Out.traceback],
        exc := none, state := r.state }
  | some (PyExc.nameError msg) =>
      { out := r.out ++
          [Out.text ("Gdb error: \"" ++ msg ++ "\". Is the target running?"),
           Out.text "", Out.traceback],
        exc := none, state := r.state }
  | _ => r

/-! ## `HeapLog.invoke` (claim C2) -/

/-- One printed unit of the `heap log` output. -/
inductive LogEvent where
  | noHistory
  | entry (index : Nat) (name time summaryText : String)
  | diffStats (prev cur : Snapshot)
deriving DecidableEq, Repr

/-- `HeapLog.invoke`: if the history is empty print `(no history)`, else
loop `for i in range(len(h.snapshots), 0, -1)`, printing label `i`, name,
time and summary of `snapshots[i-1]`, and for `i > 1` the statistics of
`Diff(snapshots[i-2], snapshots[i-1])`. -/
def heapLogInvoke (snaps : List Snapshot) : List LogEvent :=
  if snaps.length = 0 then [LogEvent.noHistory]
  else
    ((List.range snaps.length).reverse.map (· + 1)).flatMap (fun i =>
      let s := snaps.getD (i - 1) default
      LogEvent.entry i s.name s.time s.summaryText ::
        (if 1 < i then
          [LogEvent.diffStats (snaps.getD (i - 2) default) s]
        else []))

/-- The spec's description of the log, written from its words: for each
snapshot (in capture order, 1-based index) an entry with its index, name,
timestamp and summary, plus — for every snapshot except the oldest — the
Diff statistics against its immediate predecessor; the entries are then
rendered newest-first. -/
def heapLogDescribed (snaps : List Snapshot) : List LogEvent :=
  if snaps.length = 0 then [LogEvent.noHistory]
  else
    (((List.range snaps.length).map (fun k =>
      let s := snaps.getD k default
      LogEvent.entry (k + 1) s.name s.time s.summaryText ::
        (if 0 < k then
          [LogEvent.diffStats (snaps.getD (k - 1) default) s]
        else []))).reverse).flatten

/-! ## `HeapSearch.invoke` (claims C3, C4) -/

/-- The fields of one printed `BLOCK:`/`NEXT:` line: start address, printed
end address, printed kind flag, printed byte count. -/
structure PrintedBlock where
  startAddr : Nat
  endAddr : Nat
  kindInuse : Bool
  sizeBytes : Nat
deriving DecidableEq, Repr

/-- A line of `heap search` output. -/
inductive SearchLine where
  | block : PrintedBlock → SearchLine
  | next : PrintedBlock → SearchLine
deriving DecidableEq, Repr

/-- The chunk-reporting loop of `HeapSearch.invoke`: for each chunk whose
range contains `addr`, a `BLOCK` line is appended; when the `-a` flag is set
a `NEXT` line for `chunk.next_chunk()` is also appended — its printed kind
reuses `chunk.is_inuse()` and its printed end address reuses the found
chunk's `size`, exactly as the source does.  The parsed `-b` flag (`before`)
is never consulted by the loop, exactly as in the source. -/
def heapSearchLines (next_chunk : Chunk → Chunk) (chunks : List Chunk)
    (addr : Nat) (before after : Bool) : List SearchLine :=
  chunks.flatMap (fun chunk =>
    let size := chunk.size
    if chunk.addr ≤ addr ∧ addr < chunk.addr + size then
      SearchLine.block ⟨chunk.addr, chunk.addr + size - 1, chunk.inuse, size⟩ ::
        (if after then
          let chunk_after := next_chunk chunk
          [SearchLine.next ⟨chunk_after.addr, chunk_after.addr + size - 1,
            chunk.inuse, chunk_after.size⟩]
        else [])
    else [])

/-- `addr` lies in the half-open range `[c.addr, c.addr + c.size)`. -/
def containsAddr (addr : Nat) (c : Chunk) : Prop :=
  c.addr ≤ addr ∧ addr < c.addr + c.size

instance (addr : Nat) (c : Chunk) : Decidable (containsAddr addr c) :=
  inferInstanceAs (Decidable (_ ∧ _))

/-- Modelled from the spec: `chunk.next_chunk()` (defined in `heap/glibc.py`,
which is not under `src/`).  Per §4.1 the next chunk's address is
`current.address + current.size`, so in a chunk list it is the chunk starting
there. -/
def specNextChunk (chunks : List Chunk) (c : Chunk) : Chunk :=
  ((chunks.find? (fun d => d.addr = c.addr + c.size)).getD default)

/-- The three-chunk arena of the spec's scenarios:
`[(0x1000,16,used), (0x1010,32,free), (0x1030,16,used)]`. -/
def sampleArena : List Chunk :=
  [⟨0x1000, 16, true⟩, ⟨0x1010, 32, false⟩, ⟨0x1030, 16, true⟩]

/-! ## Python dict / sorted machinery -/

/-- `d[k] += v` on a missing-key-initialising insertion-ordered Python dict
(`if k in d: d[k] += v else: d[k] = v`), modelled on an association list. -/
def dictAdd {κ : Type} [DecidableEq κ] (m : List (κ × Nat)) (k : κ) (v : Nat) :
    List (κ × Nat) :=
  match m with
  | [] => [(k, v)]
  | (k0, n) :: rest => if k0 = k then (k0, n + v) :: rest else (k0, n) :: dictAdd rest k v

/-- `d[k]` lookup on the association-list dict (0 for a missing key; the
commands only look up keys they inserted). -/
def dictGet {κ : Type} [DecidableEq κ] (m : List (κ × Nat)) (k : κ) : Nat :=
  match m with
  | [] => 0
  | (k0, n) :: rest => if k0 = k then n else dictGet rest k

/-- The order used by `sorted(total_by_category.keys(),
key=total_by_category.get, reverse=True)`: descending aggregate bytes.
Python's `sorted` is stable, as is `List.insertionSort`. -/
def byBytesDesc (a b : Category × Nat) : Prop := b.2 ≤ a.2

instance : DecidableRel byBytesDesc := fun a b => Nat.decLe b.2 a.2

instance : IsTotal (Category × Nat) byBytesDesc :=
  ⟨fun a b => Nat.le_total b.2 a.2⟩

instance : IsTrans (Category × Nat) byBytesDesc :=
  ⟨fun _ _ _ h1 h2 => Nat.le_trans h2 h1⟩

/-- The order used by `sorted(chunks_by_size.keys(),
key=lambda x: chunks_by_size[x] * x)`: ascending aggregate bytes
(`count * size`), on `(size, count)` pairs. -/
def bySizeBytesAsc (a b : Nat × Nat) : Prop := a.2 * a.1 ≤ b.2 * b.1

instance : DecidableRel bySizeBytesAsc := fun a b => Nat.decLe (a.2 * a.1) (b.2 * b.1)

instance : IsTotal (Nat × Nat) bySizeBytesAsc :=
  ⟨fun a b => Nat.le_total (a.2 * a.1) (b.2 * b.1)⟩

instance : IsTrans (Nat × Nat) bySizeBytesAsc :=
  ⟨fun _ _ _ h1 h2 => Nat.le_trans h1 h2⟩

/-! ## `Heap.invoke` and `HeapSizes.invoke` (claims C5, C6) -/

/-- The accumulation state of `Heap.invoke`'s traversal loop. -/
structure HeapAgg where
  total_by_category : List (Category × Nat)
  count_by_category : List (Category × Nat)
  total_size : Nat
  total_count : Nat
deriving Repr, DecidableEq

/-- One iteration of `Heap.invoke`'s loop over the usage list. -/
def heapAggStep (a : HeapAgg) (u : Usage) : HeapAgg :=
  { total_by_category := dictAdd a.total_by_category u.category u.size
    count_by_category := dictAdd a.count_by_category u.category 1
    total_size := a.total_size + u.size
    total_count := a.total_count + 1 }

/-- The aggregation `Heap.invoke` performs over the usage records its
traversal delivered (all of them, or the prefix before an interrupt). -/
def heapAggregate (usage_list : List Usage) : HeapAgg :=
  usage_list.foldl heapAggStep ⟨[], [], 0, 0⟩

/-- The category/bytes pairs in the order the report prints them:
`sorted(total_by_category.keys(), key=total_by_category.get, reverse=True)`. -/
def heapSortedEntries (a : HeapAgg) : List (Category × Nat) :=
  a.total_by_category.insertionSort byBytesDesc

/-- The per-category rows of the `heap` report table. -/
def heapTableRows (a : HeapAgg) : List Out :=
  (heapSortedEntries a).map (fun p =>
    Out.heapRow p.1.domain p.1.kind (p.1.detail.getD "")
      (dictGet a.count_by_category p.1) p.2)

/-- `Heap.invoke`: aggregate the usage records delivered before any
`KeyboardInterrupt` (the handler turns the interrupt into `pass`), then
print the table plus the trailing TOTAL row; the command always returns
normally. -/
def heapInvoke (usage_list : List Usage) (interrupted : Bool) (s : Session) :
    CmdOut Session :=
  let a := heapAggregate usage_list
  { out := heapTableRows a ++
      [Out.heapRow "" "" "TOTAL" a.total_count a.total_size, Out.text ""]
    exc := none
    state := s }

/-- The accumulation state of `HeapSizes.invoke`'s loop. -/
structure SizesAgg where
  chunks_by_size : List (Nat × Nat)
  num_chunks : Nat
  total_size : Nat
deriving Repr, DecidableEq

/-- One iteration of `HeapSizes.invoke`'s loop: free chunks are skipped. -/
def sizesAggStep (a : SizesAgg) (chunk : Chunk) : SizesAgg :=
  if chunk.inuse then
    { chunks_by_size := dictAdd a.chunks_by_size chunk.size 1
      num_chunks := a.num_chunks + 1
      total_size := a.total_size + chunk.size }
  else a

/-- The aggregation `HeapSizes.invoke` performs over the chunks its
traversal delivered. -/
def sizesAggregate (chunks : List Chunk) : SizesAgg :=
  chunks.foldl sizesAggStep ⟨[], 0, 0⟩

/-- The size/count pairs in the order the `heap sizes` report prints them:
`sorted(chunks_by_size.keys(), key=lambda x: chunks_by_size[x] * x)` —
note: ascending, there is no `reverse=True` here. -/
def sizesSortedEntries (a : SizesAgg) : List (Nat × Nat) :=
  a.chunks_by_size.insertionSort bySizeBytesAsc

/-- The per-size rows of the `heap sizes` report table: size, count,
allocated bytes (`count * size`). -/
def sizesTableRows (a : SizesAgg) : List Out :=
  (sizesSortedEntries a).map (fun p => Out.sizesRow p.1 p.2 (p.2 * p.1))

/-- `HeapFree.invoke`: header, one line per free chunk delivered, then the
`Total size:` line.  There is no `KeyboardInterrupt` handler in this
command: an interrupt raised during the loop escapes, and the total line is
never printed. -/
def heapFreeInvoke (free_chunks : List Chunk) (interrupted : Bool)
    (s : Session) : CmdOut Session :=
  let header := [Out.text "Free chunks of memory on heap",
                 Out.text "-----------------------------"]
  let body := free_chunks.enum.map (fun p => Out.chunkLine p.1 p.2)
  if interrupted then
    { out := header ++ body, exc := some PyExc.keyboardInterrupt, state := s }
  else
    { out := header ++ body ++
        [Out.totalSizeLine (free_chunks.foldl (fun t c => t + c.size) 0)]
      exc := none, state := s }

/-! ## `HeapLabel.invoke` (used for claim C8) -/

/-- Modelled from the spec: `History.add(name)` (defined in
`heap/history.py`, which is not under `src/`) performs one full categorized
traversal of the currently selected scope, aggregates it, stamps the time,
appends the new snapshot to the log and returns it; a traversal failure
therefore propagates before anything is appended. -/
def historyAdd (traversal : Except PyExc (List Usage))
    (summary : List Usage → String) (now : String) (name : String)
    (s : Session) : Except PyExc (Snapshot × Session) :=
  match traversal with
  | Except.error e => Except.error e
  | Except.ok us =>
      let snap : Snapshot := ⟨name, now, summary us⟩
      Except.ok (snap, { s with snapshots := s.snapshots ++ [snap] })

/-- `HeapLabel.invoke`: `s = history.add(args); print(s.summary())`. -/
def heapLabelInvoke (traversal : Except PyExc (List Usage))
    (summary : List Usage → String) (now : String) (args : String)
    (s : Session) : CmdOut Session :=
  match historyAdd traversal summary now args s with
  | Except.error e => { out := [], exc := some e, state := s }
  | Except.ok (snap, s2) =>
      { out := [Out.text snap.summaryText], exc := none, state := s2 }

/-! ## `HeapArenaSelect.invoke` (claim C9) -/

/-- Python list-index normalisation for a list of length `n`: non-negative
indices must be `< n`, negative indices count from the end and must be
`≥ -n`. -/
def pyIndex (n : Nat) (i : Int) : Option Nat :=
  if 0 ≤ i then (if i < (n : Int) then some i.toNat else none)
  else (if -(n : Int) ≤ i then some ((n : Int) + i).toNat else none)

/-- Python `l[i]`: raises `IndexError` when the index is out of range. -/
def pyListGet {α : Type} (l : List α) (i : Int) : Except PyExc α :=
  match pyIndex l.length i with
  | some j =>
      match l.get? j with
      | some a => Except.ok a
      | none => Except.error PyExc.indexError
  | none => Except.error PyExc.indexError

/-- `HeapArenaSelect.invoke`:
`glibc_arenas.cur_arena = glibc_arenas.arenas[arena_num]` followed by the
`Arena set to ...` print.  An out-of-range index raises `IndexError` while
evaluating the right-hand side, before the assignment and the print. -/
def heapArenaSelectInvoke (idx : Int) (s : Session) : CmdOut Session :=
  match pyListGet s.arenas idx with
  | Except.error e => { out := [], exc := some e, state := s }
  | Except.ok a =>
      { out := [Out.arenaSetLine a.address], exc := none
        state := { s with cur_arena := a } }

/-! ## `HeapSelect.invoke` (claim C10) -/

/-- Modelled from the spec: the display of a `ParserError` (defined in
`heap/parser.py`, which is not under `src/`): it carries the offending
token and its position, which `print(e)` renders. -/
def parserErrorText (token : String) (pos : Nat) : String :=
  "parse error at token " ++ token ++ ", position " ++ toString pos

/-- `HeapSelect.invoke`: run `do_query(args)` inside `try`, catching only
`ParserError` and printing it; any other exception propagates.  `do_query`
itself lives in `heap/query.py` (not under `src/`) and is a parameter here,
returning what it printed together with the exception it raised, if any. -/
def heapSelectInvoke (do_query : String → List Out × Option PyExc)
    (args : String) (s : Session) : CmdOut Session :=
  match do_query args with
  | (outs, some (PyExc.parserError token pos)) =>
      { out := outs ++ [Out.text (parserErrorText token pos)]
        exc := none, state := s }
  | (outs, e) => { out := outs, exc := e, state := s }

/-- A concrete session: no snapshots, one arena which is current. -/
def session0 : Session := ⟨[], [⟨0x7f0000⟩], ⟨0x7f0000⟩⟩

/-- C2: `heap log` renders the snapshots newest-first; each entry shows the
snapshot's 1-based index, name, timestamp and summary, and every snapshot
except the oldest additionally shows the Diff statistics against its
immediate predecessor in capture order; an empty log prints `(no history)`
and nothing else.  Formally, `HeapLog.invoke`'s output coincides with the
spec-worded rendering `heapLogDescribed` on every history. -/
theorem c2_heap_log_newest_first (snaps : List Snapshot) :
    heapLogInvoke snaps = heapLogDescribed snaps := by
  unfold heapLogInvoke heapLogDescribed
  by_cases h : snaps.length = 0
  · simp [h]
  · simp only [h, if_false]
    rw [List.flatMap_def, List.map_reverse, List.map_reverse, List.map_map]
    congr 2
    apply List.map_congr_left
    intro k hk
    simp only [Function.comp_apply, Nat.add_sub_cancel]
    have h3 : k + 1 - 2 = k - 1 := by omega
    simp only [h3]
    congr 1
    exact if_congr (by omega) rfl rfl

/-- C2 witness: a concrete two-snapshot history is rendered newest-first
with one Diff block, and the empty history prints `(no history)`. -/
theorem c2_heap_log_newest_first_witness :
    heapLogInvoke [⟨"a", "t1", "s1"⟩, ⟨"b", "t2", "s2"⟩]
      = [LogEvent.entry 2 "b" "t2" "s2",
         LogEvent.diffStats ⟨"a", "t1", "s1"⟩ ⟨"b", "t2", "s2"⟩,
         LogEvent.entry 1 "a" "t1" "s1"]
    ∧ heapLogInvoke [] = [LogEvent.noHistory] := by
  constructor
  · rw [c2_heap_log_newest_first [⟨"a", "t1", "s1"⟩, ⟨"b", "t2", "s2"⟩]]
    rfl
  · rw [c2_heap_log_newest_first []]
    rfl

/-- C3: for a literal address, `heap search` reports exactly those chunks
whose half-open range `[as_address, as_address + chunksize)` contains the
address (each with its bounds, size and in-use flag), and when no chunk
contains the address the output is empty — a normal outcome, not an
error. -/
theorem c3_heap_search_containment (next_chunk : Chunk → Chunk)
    (chunks : List Chunk) (addr : Nat) (before : Bool) :
    heapSearchLines next_chunk chunks addr before false
      = (chunks.filter (fun c => decide (containsAddr addr c))).map
          (fun c => SearchLine.block ⟨c.addr, c.addr + c.size - 1, c.inuse, c.size⟩)
    ∧ ((∀ c ∈ chunks, ¬ containsAddr addr c) →
        ∀ after : Bool, heapSearchLines next_chunk chunks addr before after = []) := by
  constructor
  · induction chunks with
    | nil => rfl
    | cons c cs ih =>
      simp only [heapSearchLines, List.flatMap_cons, List.filter_cons] at ih ⊢
      simp only [Bool.false_eq_true, if_false] at ih ⊢
      by_cases hc : c.addr ≤ addr ∧ addr < c.addr + c.size
      · rw [if_pos hc, ih]
        have : containsAddr addr c := hc
        simp [this]
      · rw [if_neg hc]
        have : ¬ containsAddr addr c := hc
        simp [this, ih]
  · intro h after
    induction chunks with
    | nil => rfl
    | cons c cs ih =>
      have hc : ¬ (c.addr ≤ addr ∧ addr < c.addr + c.size) :=
        h c (List.mem_cons_self c cs)
      simp only [heapSearchLines, List.flatMap_cons] at ih ⊢
      rw [if_neg hc]
      simp only [List.nil_append]
      exact ih (fun d hd => h d (List.mem_cons_of_mem c hd))

/-- C3 witness: on the spec's scenario arena, searching `0x5000` (outside
every chunk) produces empty output. -/
theorem c3_heap_search_containment_witness :
    heapSearchLines (specNextChunk sampleArena) sampleArena 0x5000 false true = [] :=
  (c3_heap_search_containment (specNextChunk sampleArena) sampleArena 0x5000 false).2
    (by decide) true

/-- C4: evaluating `HeapSearch.invoke` on the scenario arena at address
`0x1018`.  With `-b` set, only the `BLOCK` line appears — the parsed
`before` flag is never consulted, so no preceding chunk is ever reported.
With `-a` set, the `NEXT` line for the following chunk `(0x1030,16,used)`
prints the found chunk's in-use flag (`free`) and an end address computed
from the found chunk's size (`0x104f`), not the neighbour's own flag
(`used`, third conjunct) and own range end (`0x103f`, fourth conjunct). -/
theorem c4_heap_search_neighbor_bug :
    heapSearchLines (specNextChunk sampleArena) sampleArena 0x1018 true false
      = [SearchLine.block ⟨0x1010, 0x102f, false, 32⟩]
    ∧ heapSearchLines (specNextChunk sampleArena) sampleArena 0x1018 false true
      = [SearchLine.block ⟨0x1010, 0x102f, false, 32⟩,
         SearchLine.next ⟨0x1030, 0x104f, false, 16⟩]
    ∧ (specNextChunk sampleArena ⟨0x1010, 32, false⟩).inuse = true
    ∧ (specNextChunk sampleArena ⟨0x1010, 32, false⟩).addr
        + (specNextChunk sampleArena ⟨0x1010, 32, false⟩).size - 1 = 0x103f := by
  decide

/-! ## Dict bookkeeping lemmas (shared by the report-order proofs) -/

theorem dictAdd_sum_snd {κ : Type} [DecidableEq κ] (m : List (κ × Nat)) (k : κ) (v : Nat) :
    ((dictAdd m k v).map Prod.snd).sum = (m.map Prod.snd).sum + v := by
  induction m with
  | nil => simp [dictAdd]
  | cons p rest ih =>
    obtain ⟨k0, n⟩ := p
    by_cases h : k0 = k
    · simp [dictAdd, h]
      omega
    · simp [dictAdd, h, ih]
      omega

theorem dictAdd_sum_mul (m : List (Nat × Nat)) (k : Nat) (v : Nat) :
    ((dictAdd m k v).map (fun p => p.2 * p.1)).sum
      = (m.map (fun p => p.2 * p.1)).sum + v * k := by
  induction m with
  | nil => simp [dictAdd]
  | cons p rest ih =>
    obtain ⟨k0, n⟩ := p
    by_cases h : k0 = k
    · subst h
      simp [dictAdd, Nat.add_mul]
      ring
    · simp [dictAdd, h, ih]
      ring

theorem dictAdd_keys {κ : Type} [DecidableEq κ] (m : List (κ × Nat)) (k : κ) (v : Nat) :
    (dictAdd m k v).map Prod.fst
      = if k ∈ m.map Prod.fst then m.map Prod.fst else m.map Prod.fst ++ [k] := by
  induction m with
  | nil => simp [dictAdd]
  | cons p rest ih =>
    obtain ⟨k0, n⟩ := p
    by_cases h : k0 = k
    · subst h
      simp [dictAdd]
    · simp only [dictAdd, if_neg h, List.map_cons, ih]
      by_cases h2 : k ∈ rest.map Prod.fst
      · simp [h2, List.mem_cons, Ne.symm h]
      · simp [h2, List.mem_cons, Ne.symm h]

theorem dictAdd_keys_nodup {κ : Type} [DecidableEq κ] (m : List (κ × Nat)) (k : κ) (v : Nat)
    (h : (m.map Prod.fst).Nodup) : ((dictAdd m k v).map Prod.fst).Nodup := by
  rw [dictAdd_keys]
  by_cases h2 : k ∈ m.map Prod.fst
  · simpa [h2] using h
  · simp only [h2, if_false]
    rw [List.nodup_append]
    exact ⟨h, List.nodup_singleton k, by simpa using h2⟩

theorem sum_dictGet_keys {κ : Type} [DecidableEq κ] (m : List (κ × Nat))
    (h : (m.map Prod.fst).Nodup) :
    ((m.map Prod.fst).map (dictGet m)).sum = (m.map Prod.snd).sum := by
  induction m with
  | nil => rfl
  | cons p rest ih =>
    obtain ⟨k0, n⟩ := p
    simp only [List.map_cons, List.sum_cons, List.nodup_cons] at h ⊢
    have hk0 : dictGet ((k0, n) :: rest) k0 = n := by simp [dictGet]
    have hrest : ∀ k ∈ rest.map Prod.fst,
        dictGet ((k0, n) :: rest) k = dictGet rest k := by
      intro k hk
      have hne : k0 ≠ k := fun he => h.1 (he ▸ hk)
      simp [dictGet, hne]
    rw [hk0, List.map_congr_left hrest, ih h.2]

/-- The loop invariant of `Heap.invoke`'s aggregation: the two dicts share
their key sequence, keys are unique, and the running totals equal the sums
of the dict values. -/
structure AggInv (a : HeapAgg) : Prop where
  keys_eq : a.total_by_category.map Prod.fst = a.count_by_category.map Prod.fst
  keys_nodup : (a.total_by_category.map Prod.fst).Nodup
  sum_total : (a.total_by_category.map Prod.snd).sum = a.total_size
  sum_count : (a.count_by_category.map Prod.snd).sum = a.total_count

theorem heapAggStep_inv {a : HeapAgg} (h : AggInv a) (u : Usage) :
    AggInv (heapAggStep a u) := by
  constructor
  · simp only [heapAggStep, dictAdd_keys, h.keys_eq]
  · exact dictAdd_keys_nodup _ _ _ h.keys_nodup
  · simp [heapAggStep, dictAdd_sum_snd, h.sum_total]
  · simp [heapAggStep, dictAdd_sum_snd, h.sum_count]

theorem heapAggregate_inv (usage_list : List Usage) :
    AggInv (heapAggregate usage_list) := by
  suffices h : ∀ a, AggInv a → AggInv (usage_list.foldl heapAggStep a) from
    h _ ⟨rfl, List.nodup_nil, rfl, rfl⟩
  induction usage_list with
  | nil => intro a h; exact h
  | cons u rest ih => intro a h; exact ih _ (heapAggStep_inv h u)

/-- The loop invariant of `HeapSizes.invoke`'s aggregation. -/
structure SizesInv (a : SizesAgg) : Prop where
  sum_count : (a.chunks_by_size.map Prod.snd).sum = a.num_chunks
  sum_bytes : (a.chunks_by_size.map (fun p => p.2 * p.1)).sum = a.total_size

theorem sizesAggStep_inv {a : SizesAgg} (h : SizesInv a) (c : Chunk) :
    SizesInv (sizesAggStep a c) := by
  by_cases hc : c.inuse
  · constructor
    · simp [sizesAggStep, hc, dictAdd_sum_snd, h.sum_count]
    · simp [sizesAggStep, hc, dictAdd_sum_mul, h.sum_bytes]
  · simpa [sizesAggStep, hc] using h

theorem sizesAggregate_inv (chunks : List Chunk) :
    SizesInv (sizesAggregate chunks) := by
  suffices h : ∀ a, SizesInv a → SizesInv (chunks.foldl sizesAggStep a) from
    h _ ⟨rfl, rfl⟩
  induction chunks with
  | nil => intro a h; exact h
  | cons c rest ih => intro a h; exact ih _ (sizesAggStep_inv h c)

/-- C5: `HeapFree.invoke` has no `KeyboardInterrupt` handler, so an
interrupt raised during its traversal escapes the command and its two
decorators (which catch only `MissingDebuginfo`, `gdb.error` and
`NameError`), and the `Total size:` line for the chunks already processed
is never printed — contrary to the claim that every report command catches
the interrupt and still reports its partial aggregate.  For contrast,
`Heap.invoke` under the same interrupt returns normally and still prints
its TOTAL row for the processed prefix. -/
theorem c5_heap_free_interrupt_escapes :
    (need_debuginfo (target_running (heapFreeInvoke [⟨0x1000, 16, false⟩] true)) session0).exc
      = some PyExc.keyboardInterrupt
    ∧ Out.totalSizeLine 16 ∉
        (need_debuginfo (target_running (heapFreeInvoke [⟨0x1000, 16, false⟩] true)) session0).out
    ∧ (heapInvoke [⟨24, ⟨"python", "str", none⟩⟩] true session0).exc = none
    ∧ Out.heapRow "" "" "TOTAL" 1 24 ∈
        (heapInvoke [⟨24, ⟨"python", "str", none⟩⟩] true session0).out := by
  decide

/-- An arena whose in-use chunks give size classes `16 → 2 chunks (32
bytes)` and `100 → 1 chunk (100 bytes)`. -/
def sizesSample : List Chunk :=
  [⟨0x1000, 16, true⟩, ⟨0x1010, 16, true⟩, ⟨0x1020, 100, true⟩]

/-- C6 counterexample: on `sizesSample` the `heap sizes` report rows come
out as `(16, 2, 32 bytes)` then `(100, 1, 100 bytes)` — ascending, not
descending, in total allocated bytes, so the claim that every aggregate
report is ordered by descending total bytes is false. -/
theorem c6_sizes_ascending_counterexample :
    sizesSortedEntries (sizesAggregate sizesSample) = [(16, 2), (100, 1)]
    ∧ sizesTableRows (sizesAggregate sizesSample)
        = [Out.sizesRow 16 2 32, Out.sizesRow 100 1 100]
    ∧ ¬ List.Pairwise (fun p q : Nat × Nat => q.2 * q.1 ≤ p.2 * p.1)
        (sizesSortedEntries (sizesAggregate sizesSample)) := by
  decide

/-- C6 (amended): the `heap` report rows are ordered by descending
aggregate bytes and its trailing TOTAL row equals the sums of the
per-category counts and bytes it displays; the `heap sizes` report rows are
ordered by ascending aggregate bytes (`count * size`) and its trailing
TOTALS row equals the sums of the per-size counts and bytes it displays.
Both sorts are stable, so ties keep first-insertion order
deterministically. -/
theorem c6_report_order_amended (usage_list : List Usage) (chunks : List Chunk) :
    List.Pairwise byBytesDesc (heapSortedEntries (heapAggregate usage_list))
    ∧ ((heapSortedEntries (heapAggregate usage_list)).map
        (fun p => dictGet (heapAggregate usage_list).count_by_category p.1)).sum
        = (heapAggregate usage_list).total_count
    ∧ ((heapSortedEntries (heapAggregate usage_list)).map Prod.snd).sum
        = (heapAggregate usage_list).total_size
    ∧ List.Pairwise bySizeBytesAsc (sizesSortedEntries (sizesAggregate chunks))
    ∧ ((sizesSortedEntries (sizesAggregate chunks)).map Prod.snd).sum
        = (sizesAggregate chunks).num_chunks
    ∧ ((sizesSortedEntries (sizesAggregate chunks)).map (fun p => p.2 * p.1)).sum
        = (sizesAggregate chunks).total_size := by
  have hA := heapAggregate_inv usage_list
  have hS := sizesAggregate_inv chunks
  have hpermA : (heapSortedEntries (heapAggregate usage_list)).Perm
      (heapAggregate usage_list).total_by_category :=
    List.perm_insertionSort byBytesDesc _
  have hpermS : (sizesSortedEntries (sizesAggregate chunks)).Perm
      (sizesAggregate chunks).chunks_by_size :=
    List.perm_insertionSort bySizeBytesAsc _
  refine ⟨List.sorted_insertionSort byBytesDesc _, ?_, ?_,
          List.sorted_insertionSort bySizeBytesAsc _, ?_, ?_⟩
  · rw [(hpermA.map (fun p => dictGet (heapAggregate usage_list).count_by_category p.1)).sum_eq]
    have h1 : (heapAggregate usage_list).total_by_category.map
        (fun p => dictGet (heapAggregate usage_list).count_by_category p.1)
        = ((heapAggregate usage_list).total_by_category.map Prod.fst).map
            (dictGet (heapAggregate usage_list).count_by_category) := by
      rw [List.map_map]
      rfl
    rw [h1, hA.keys_eq, sum_dictGet_keys _ (hA.keys_eq ▸ hA.keys_nodup), hA.sum_count]
  · rw [(hpermA.map Prod.snd).sum_eq, hA.sum_total]
  · rw [(hpermS.map Prod.snd).sum_eq, hS.sum_count]
  · rw [(hpermS.map (fun p => p.2 * p.1)).sum_eq, hS.sum_bytes]

/-- C7: a command raising `MissingDebuginfo` under the `need_debuginfo`
decorator has the exception caught at the command level; the operator sees
the missing module's name and the `debuginfo-install` remediation hint, and
the command returns normally (no exception propagates), with the state the
command produced. -/
theorem c7_need_debuginfo_reports {σ : Type} (f : σ → CmdOut σ) (s : σ) (m : String)
    (h : (f s).exc = some (PyExc.missingDebuginfo m)) :
    need_debuginfo f s =
      { out := (f s).out ++
          [Out.text ("Missing debuginfo for " ++ m),
           Out.text "Suggested fix:",
           Out.text ("    debuginfo-install " ++ m)],
        exc := none, state := (f s).state } := by
  simp only [need_debuginfo]
  rw [h]

/-- C7 witness: a command failing with `MissingDebuginfo("glibc")` yields
the three-line report and a normal return. -/
theorem c7_need_debuginfo_reports_witness :
    need_debuginfo (fun s : Session => ⟨[], some (PyExc.missingDebuginfo "glibc"), s⟩) session0
      = ⟨[Out.text "Missing debuginfo for glibc",
          Out.text "Suggested fix:",
          Out.text "    debuginfo-install glibc"], none, session0⟩ := by
  rw [c7_need_debuginfo_reports
    (fun s : Session => ⟨[], some (PyExc.missingDebuginfo "glibc"), s⟩) session0 "glibc" rfl]
  decide

/-- C8: a command raising `gdb.error` or `NameError` under the
`target_running` decorator aborts only that command: the decorator prints
the error's cause (plus a traceback), swallows the exception so the session
continues, and keeps whatever state the command left; moreover a
`HeapLabel` command whose traversal fails this way leaves the History log
untouched (per the spec, `History.add` appends only after a complete
traversal) and is likewise absorbed. -/
theorem c8_target_running_recovers {σ : Type} (f : σ → CmdOut σ) (s : σ) (msg : String)
    (h : (f s).exc = some (PyExc.gdbError msg) ∨ (f s).exc = some (PyExc.nameError msg)) :
    ((target_running f s).exc = none
      ∧ (target_running f s).out = (f s).out ++
          [Out.text ("Gdb error: \"" ++ msg ++ "\". Is the target running?"),
           Out.text "", Out.traceback]
      ∧ (target_running f s).state = (f s).state)
    ∧ ∀ (summary : List Usage → String) (now args : String) (sess : Session),
        (need_debuginfo (target_running
          (heapLabelInvoke (Except.error (PyExc.gdbError msg)) summary now args)) sess).state = sess
        ∧ (need_debuginfo (target_running
          (heapLabelInvoke (Except.error (PyExc.gdbError msg)) summary now args)) sess).exc = none := by
  constructor
  · rcases h with h | h <;>
    · simp only [target_running]
      rw [h]
      exact ⟨rfl, rfl, rfl⟩
  · intro summary now args sess
    exact ⟨rfl, rfl⟩

/-- C8 witness: a concrete `gdb.error` is swallowed with the cause
reported, and a failed `heap label` leaves the session unchanged. -/
theorem c8_target_running_recovers_witness :
    (target_running
      (fun s : Session => ⟨[], some (PyExc.gdbError "No symbol table is loaded"), s⟩) session0).exc = none
    ∧ (need_debuginfo (target_running
        (heapLabelInvoke (Except.error (PyExc.gdbError "No symbol table is loaded"))
          (fun _ => "sum") "now" "lbl")) session0).state = session0 := by
  have h := c8_target_running_recovers
    (fun s : Session => ⟨[], some (PyExc.gdbError "No symbol table is loaded"), s⟩)
    session0 "No symbol table is loaded" (Or.inl rfl)
  exact ⟨h.1.1, (h.2 (fun _ => "sum") "now" "lbl" session0).1⟩

/-- C9 counterexample: selecting arena index 3 in a one-arena session does
NOT produce an in-command report and a normal return — the command ends
with an uncaught `IndexError` (neither decorator catches it) and prints
nothing, so the claim that the out-of-range index is reported and ignored
by the operation is false; only the unchanged-selection part survives. -/
theorem c9_arena_select_counterexample :
    (need_debuginfo (target_running (heapArenaSelectInvoke 3)) session0).exc
        = some PyExc.indexError
    ∧ (need_debuginfo (target_running (heapArenaSelectInvoke 3)) session0).out = []
    ∧ ¬ (need_debuginfo (target_running (heapArenaSelectInvoke 3)) session0).exc = none := by
  decide

/-- C9 (amended): an out-of-range arena index (in Python's indexing
semantics: `idx ≥ len` or `idx < -len`) makes `heap arena` fail with an
uncaught `IndexError` that escapes both decorators, with nothing printed by
the module and the current arena selection left unchanged. -/
theorem c9_arena_select_amended (s : Session) (idx : Int)
    (h : (s.arenas.length : Int) ≤ idx ∨ idx < -(s.arenas.length : Int)) :
    need_debuginfo (target_running (heapArenaSelectInvoke idx)) s
      = { out := [], exc := some PyExc.indexError, state := s } := by
  have hq : pyIndex s.arenas.length idx = none := by
    unfold pyIndex
    split_ifs with h1 h2 h3 <;> first | rfl | omega
  have hg : heapArenaSelectInvoke idx s = ⟨[], some PyExc.indexError, s⟩ := by
    unfold heapArenaSelectInvoke pyListGet
    rw [hq]
  simp only [need_debuginfo, target_running, hg]

/-- C9 witness: index 5 against the one-arena session. -/
theorem c9_arena_select_amended_witness :
    need_debuginfo (target_running (heapArenaSelectInvoke 5)) session0
      = { out := [], exc := some PyExc.indexError, state := session0 } :=
  c9_arena_select_amended session0 5 (Or.inl (by decide))

/-- C10: when `do_query` raises a `ParserError` (carrying the offending
token and position), `HeapSelect.invoke` catches it and prints it; the
command returns normally — no exception escapes the decorators, the session
continues and the session state is unchanged. -/
theorem c10_select_parse_error (do_query : String → List Out × Option PyExc)
    (args : String) (s : Session) (outs : List Out) (token : String) (pos : Nat)
    (h : do_query args = (outs, some (PyExc.parserError token pos))) :
    need_debuginfo (target_running (heapSelectInvoke do_query args)) s
      = { out := outs ++ [Out.text (parserErrorText token pos)]
          exc := none, state := s } := by
  have hg : heapSelectInvoke do_query args s
      = ⟨outs ++ [Out.text (parserErrorText token pos)], none, s⟩ := by
    unfold heapSelectInvoke
    rw [h]
  simp only [need_debuginfo, target_running, hg]

/-- C10 witness: the malformed predicate `"size >"` with a `ParserError`
at the token after `>`. -/
theorem c10_select_parse_error_witness :
    need_debuginfo (target_running
      (heapSelectInvoke (fun _ => ([], some (PyExc.parserError ">" 7))) "size >")) session0
      = { out := [Out.text (parserErrorText ">" 7)], exc := none, state := session0 } := by
  have h := c10_select_parse_error
    (fun _ => ([], some (PyExc.parserError ">" 7))) "size >" session0 [] ">" 7 rfl
  simpa using h


/-! ## The module source from line 427 (claim C1) -/

/-- The verbatim text of `heap/commands.py` from line 427 — the `print(`
call of `Objdump.invoke` that is missing its closing parenthesis — to the
last line of the file (line 564). -/
def commandsTailLines : List String := [
"        print('Searching in the following executable sections'",
"        print('-------------------------------------------------')",
"        text = [] #list of pairs (start, end) of a code section",
"        for i in gdb.inferiors():",
"            for r in iter_code_sections(i.pid):",
"                print(\"%s - %s : %s\" % (hex(r[0]), hex(r[1]), r[2]))",
"                text.append((r[0], r[1], r[2]))",
"",
"        print('\\nDumping Object at address %s' % hex(addr))",
"        print('-------------------------------------------------')",
"        SIZE_SZ = caching_lookup_type('size_t').sizeof",
"        for a in range(addr,addr+total_size, SIZE_SZ):",
"            ptr = WrappedPointer(gdb.Value(a))",
"            #dereference first, at the first access denied bail out, dont go further",
"            try:",
"                val = ptr.dereference()",
"                print(\"%s => %s\" % (hex(ptr), hex(val)))",
"                for t in text:",
"                    if a >= t[0] and a <t[1]:",
"                        place=0",
"            ",
"            except:",
"                print(\"Error accessing memory\")",
"                raise",
"",
"",
"class Hexdump(gdb.Command):",
"    'Print a hexdump, starting at the specific region of memory'",
"    def __init__(self):",
"        gdb.Command.__init__ (self,",
"                              \"hexdump\",",
"                              gdb.COMMAND_DATA)",
"",
"    def invoke(self, args, from_tty):",
"        ",
"        arg_list = gdb.string_to_argv(args)",
"        parser = argparse.ArgumentParser(add_help=True, usage=\"hexdump [-c] [-w] [-s SIZE] <ADDR>\")",
"        parser.add_argument('addr', metavar='ADDR', type=str, nargs=1, help=\"Target address\")",
"        parser.add_argument('-c', dest='chars', action=\"store_true\", default=False, help=\"Show chars only\")",
"        parser.add_argument('-s', dest='size', default=None, help='Total Dump size')",
"        parser.add_argument('-w', dest='wide', action=\"store_true\", default=False, ",
"            help='wide: 32 bytes per line instead of 16')",
"",
"        try:",
"            args_dict = parser.parse_args(args=arg_list)",
"        except:",
"            return",
"",
"        addr_arg = args_dict.addr[0]",
"        if args_dict.size:",
"            if args_dict.size.startswith('0x'):",
"                total_size = int(args_dict.size, 16)",
"            else:",
"                total_size = int(args_dict.size)",
"        else:",
"            total_size = 0x100",
"",
"        if args_dict.wide:",
"            size = 32",
"        else:",
"            size = 16",
"",
"        chars_only = args_dict.chars",
"",
"",
"        if addr_arg.startswith('0x'):",
"            start = int(addr_arg, 16)",
"        else:",
"            start = int(addr_arg)",
"",
"        addr = start",
"        end = addr + total_size",
"        try:",
"            while addr + size <= end:",
"                hd = hexdump_as_bytes(addr, size, chars_only=chars_only)",
"                print ('%s -> %s %s' % (fmt_addr(addr), fmt_addr(addr + size -1), hd))",
"                addr += size",
"            ",
"            r = (end-start) % size",
"            if r > 0 :",
"                hd = hexdump_as_bytes(addr, r, chars_only=chars_only)",
"                print ('%s -> %s %s' % (fmt_addr(addr), fmt_addr(addr + r -1), hd))",
"        except KeyboardInterrupt:",
"            print(\"Interrupt\")",
"            return",
"        except gdb.MemoryError:",
"            print(\"Error accessing memory\")",
"",
"class HeapArenas(gdb.Command):",
"    'Display heap arenas available'",
"    def __init__(self):",
"        gdb.Command.__init__ (self,",
"                              \"heap arenas\",",
"                              gdb.COMMAND_DATA)",
"",
"    @need_debuginfo",
"    @target_running",
"    def invoke(self, args, from_tty):",
"        from heap.glibc import glibc_arenas",
"        for n, arena in enumerate(glibc_arenas.arenas):",
"            print(\"Arena #%d: %s\" % (n, arena.address))",
"",
"class HeapArenaSelect(gdb.Command):",
"    'Select heap arena'",
"    def __init__(self):",
"        gdb.Command.__init__ (self,",
"                              \"heap arena\",",
"                              gdb.COMMAND_DATA)",
"",
"    @need_debuginfo",
"    @target_running",
"    def invoke(self, args, from_tty):",
"        from heap.glibc import glibc_arenas",
"        arena_num = int(args)",
"        glibc_arenas.cur_arena = glibc_arenas.arenas[arena_num]",
"        print(\"Arena set to %s\" % glibc_arenas.cur_arena.address)",
"",
"",
"",
"def register_commands():",
"    # Register the commands with gdb",
"    Heap()",
"    HeapSizes()",
"    HeapUsed()",
"    HeapFree()",
"    HeapAll()",
"    HeapLog()",
"    HeapLabel()",
"    HeapDiff()",
"    HeapSelect()",
"    HeapArenas()",
"    HeapArenaSelect()",
"    HeapSearch()",
"    HeapChunk()",
"    Hexdump()",
"    Objdump()",
"",
"    from heap.cpython import register_commands as register_cpython_commands"]

/-- Lexical state for the parenthesis scan: code, inside a single-quoted
string literal, inside a double-quoted string literal, inside a `#`
comment.  (No string in this region of the file contains an escaped quote
or spans lines, and none contains a parenthesis.) -/
inductive ScanSt where
  | code
  | sstr
  | dstr
  | comment
deriving DecidableEq, Repr

/-- One character of the scan: parentheses (codes 40/41) count only in code
state; quotes (codes 39/34) open and close the string states; `#` (code 35)
starts a comment. -/
def scanStep : ScanSt × Int → Char → ScanSt × Int := fun sd c =>
  match sd.1 with
  | ScanSt.code =>
      if c = Char.ofNat 40 then (ScanSt.code, sd.2 + 1)
      else if c = Char.ofNat 41 then (ScanSt.code, sd.2 - 1)
      else if c = Char.ofNat 39 then (ScanSt.sstr, sd.2)
      else if c = Char.ofNat 34 then (ScanSt.dstr, sd.2)
      else if c = Char.ofNat 35 then (ScanSt.comment, sd.2)
      else (ScanSt.code, sd.2)
  | ScanSt.sstr => if c = Char.ofNat 39 then (ScanSt.code, sd.2) else (ScanSt.sstr, sd.2)
  | ScanSt.dstr => if c = Char.ofNat 34 then (ScanSt.code, sd.2) else (ScanSt.dstr, sd.2)
  | ScanSt.comment => (ScanSt.comment, sd.2)

/-- Scan one physical line; a comment ends with its line. -/
def scanAcrossLine (sd : ScanSt × Int) (line : String) : ScanSt × Int :=
  let r := line.toList.foldl scanStep sd
  (if r.1 = ScanSt.comment then ScanSt.code else r.1, r.2)

/-- The net parenthesis depth after each successive line, scanning from
depth 0 in code state. -/
def lineDepths (lines : List String) : List Int :=
  ((lines.scanl scanAcrossLine (ScanSt.code, 0)).drop 1).map Prod.snd

/-- The classes `register_commands()` instantiates, in source order. -/
def register_commands_classes : List String :=
  ["Heap", "HeapSizes", "HeapUsed", "HeapFree", "HeapAll", "HeapLog",
   "HeapLabel", "HeapDiff", "HeapSelect", "HeapArenas", "HeapArenaSelect",
   "HeapSearch", "HeapChunk", "Hexdump", "Objdump"]

set_option maxRecDepth 100000 in
set_option maxHeartbeats 2000000 in
/-- C1: scanning the verbatim module text from line 427 onward (counting
parentheses outside string literals and comments), the depth is already 1
after line 427 and stays at least 1 after every remaining line, ending at 1
at the last line: the parenthesis opened by the `print(` of
`Objdump.invoke` is never closed.  Under Python's grammar a module with an
unclosed `(` at end of file raises `SyntaxError`, so importing
`heap.commands` fails, `register_commands()` can never run, and none of the
fifteen command classes it instantiates is ever registered. -/
theorem c1_unclosed_paren_kills_module :
    (lineDepths commandsTailLines).all (fun d => decide (1 ≤ d)) = true
    ∧ (lineDepths commandsTailLines).headD 0 = 1
    ∧ (lineDepths commandsTailLines).getLastD 0 = 1
    ∧ register_commands_classes.length = 15 := by
  decide

end GdbHeap
